import Mathlib

/-!
# Verification of the `comm` argument marshaller

A shallow embedding of the Go package `comm` (files `marshal.go` /
`ptr.go` and their current revisions), which converts structured values
into command-line argument token lists, driven by a per-field `comm:"…"`
struct-tag directive.

The embedding follows the newest revision of the source (the one with
`omitempty` and `true=`/`false=` directive support and the
`fieldSpec.marshalArgs` method): Go strings are Lean `String`s, Go string
helpers (`strings.Split`, `strings.SplitN`, `strings.HasPrefix`,
`strings.HasSuffix`, `strings.Join`) are re-implemented below by
structural recursion on the character list so that every definition
evaluates inside the kernel; fallible Go functions returning
`(T, error)` become `Except GoError T`, with a distinguished error
constructor for Go runtime panics.
-/

namespace Comm

/-- Errors produced by the marshaller.  `goError` models an ordinary
`error` value created with `errors.New`/`fmt.Errorf`; `goPanic` models a
Go runtime panic (the marshaller can reach `reflect` panics);
`marshalStructFieldError` models the exported struct type
`MarshalStructFieldError{FieldName, FieldNum, Err}`. -/
inductive GoError where
  | goError (s : String) : GoError
  | goPanic (s : String) : GoError
  | marshalStructFieldError (FieldName : String) (FieldNum : Nat) (Err : GoError) : GoError
deriving Repr, DecidableEq

/-- `(MarshalStructFieldError).Unwrap() error` — returns the wrapped
cause; other error kinds do not unwrap. -/
def GoError.Unwrap : GoError → Option GoError
  | .marshalStructFieldError _ _ e => some e
  | _ => none

deriving instance DecidableEq for Except

/-- Result type of the marshalling functions: Go `([]string, error)`. -/
abbrev MarshalResult := Except GoError (List String)

/-- `ptr.go`: `func P[T comparable](value T) *T` specialised to strings —
a present optional. -/
def P (value : String) : Option String := some value

/-- `ptr.go`: `func F[T comparable](p *T) T` specialised to strings —
dereference, or the zero value `""` for nil. -/
def F (p : Option String) : String := p.getD ""

/-- `strconv.FormatBool`. -/
def formatBool (b : Bool) : String := if b then "true" else "false"

/-- Character-list core of `strings.Split` with a single-character
separator (the source only splits on `","` and `"="`). -/
def splitChAux (sep : Char) : List Char → List Char → List String
  | [], acc => [String.mk acc.reverse]
  | c :: rest, acc =>
    if c = sep then String.mk acc.reverse :: splitChAux sep rest []
    else splitChAux sep rest (c :: acc)

/-- `strings.Split(s, sep)` for a one-character separator.  Like the Go
function it yields `[""]` on the empty string and keeps empty fields. -/
def goSplit (s : String) (sep : Char) : List String :=
  splitChAux sep s.data []

/-- Character-list core of `strings.HasPrefix`. -/
def goStartsWithCh : List Char → List Char → Bool
  | [], _ => true
  | _ :: _, [] => false
  | p :: ps, c :: cs => p == c && goStartsWithCh ps cs

/-- `strings.HasPrefix(s, pre)`. -/
def goStartsWith (s pre : String) : Bool := goStartsWithCh pre.data s.data

/-- `strings.HasSuffix(s, suf)`. -/
def goEndsWith (s suf : String) : Bool :=
  goStartsWithCh suf.data.reverse s.data.reverse

/-- `strings.Join(elems, sep)`. -/
def goJoin (elems : List String) (sep : String) : String :=
  match elems with
  | [] => ""
  | e :: rest => rest.foldl (fun acc x => acc ++ sep ++ x) e

/-- `strings.SplitN(s, "=", 2)`: split on the first `=` only; a string
without `=` stays a single element. -/
def splitN2 (s : String) (sep : Char) : List String :=
  match goSplit s sep with
  | [] => [s]
  | [x] => [x]
  | x :: rest => [x, goJoin rest (String.mk [sep])]

/-- The parsed form of one field's `comm:"…"` directive (Go struct
`fieldSpec`).  The source nests the two boolean-substitution strings in
an anonymous struct `Bool{True, False}`; they are flattened here to
`BoolTrue`/`BoolFalse`. -/
structure fieldSpec where
  OmitField : Bool := false
  OmitEmpty : Bool := false
  SingleArgc : Option String := none
  Prepend : List String := []
  Append : List String := []
  Separator : Option String := none
  BoolTrue : Option String := none
  BoolFalse : Option String := none
deriving Repr, DecidableEq

/-- The key/value scan of `parseSpec`'s `for` loop body for one
directive element: bare keyword `omitempty` sets `OmitEmpty`; `true=v` /
`false=v` set the boolean substitutions; everything else is ignored. -/
def parseSpecKV (parsed : fieldSpec) (elem : String) : fieldSpec :=
  match splitN2 elem '=' with
  | [k] =>
    if k == "omitempty" then { parsed with OmitEmpty := true } else parsed
  | [k, v] =>
    if k == "true" then { parsed with BoolTrue := P v }
    else if k == "false" then { parsed with BoolFalse := P v }
    else parsed
  | _ => parsed

/-- `func parseSpec(spec string) (*fieldSpec, error)`: the directive
parser.  `""` gives the default spec; `"-"` or a `"-,"`-led directive
omits the field outright; otherwise the elements are split on `","`,
the first element sets `SingleArgc` (dash-led, `=`-terminated) or
`Prepend` (dash-led), and every element (the first included) is scanned
for key/value directives.  Every return site of the source carries a
`nil` error. -/
def parseSpec (spec : String) : Except GoError fieldSpec :=
  if spec == "" then .ok { OmitField := false }
  else if spec == "-" || goStartsWith spec "-," then .ok { OmitField := true }
  else
    match goSplit spec ',' with
    | [] => .ok {}
    | first :: rest =>
      let parsed : fieldSpec :=
        if goStartsWith first "-" then
          if goEndsWith first "=" then { SingleArgc := P first }
          else { Prepend := [first] }
        else {}
      .ok (List.foldl parseSpecKV parsed (first :: rest))

mutual
/-- The values the dispatcher `marshalArgs` can receive (`data any`),
one constructor per category of the source's type/kind switch:
`nilAny` is the untyped `nil` interface; `marshaler res extra` is a
value implementing `ArgsMarshaler` whose `MarshalArgs` returns `res`
(`extra` being any further struct fields such a value may expose, as in
the repository's `HardcodedArgs` test type); `str`/`ptrStr`/`boolVal`/
`ptrBool`/`strSlice`/`ptrStrSlice` are the built-in cases `string`,
`*string`, `bool`, `*bool`, `[]string`, `[]*string`; `textMarshaler`
is an `encoding.TextMarshaler` whose `MarshalText` returns the given
result; `stringer` is a `fmt.Stringer` returning the given string;
`structVal` is a struct value with its declared fields in order;
`ptr` is any other pointer (`reflect.Ptr` kind — e.g. a pointer to a
struct), `none` being a typed nil pointer; `withMethods e z rz d` is a
value of a named type implementing `IsEmpty() bool` (returning `e` when
implemented) and/or `IsZero() bool` (returning `z` when implemented),
whose `reflect.Value.IsZero` is `rz` and whose dispatch through
`marshalArgs`'s switch behaves like `d` (e.g. a named struct type, or
one with a `String` method); `unsupported` is a value matching no
category (e.g. a map). -/
inductive GoValue where
  | nilAny : GoValue
  | marshaler (res : Except GoError (List String)) (extra : List GoField) : GoValue
  | str (s : String) : GoValue
  | ptrStr (v : Option String) : GoValue
  | boolVal (b : Bool) : GoValue
  | ptrBool (v : Option Bool) : GoValue
  | strSlice (vs : List String) : GoValue
  | ptrStrSlice (vs : List (Option String)) : GoValue
  | textMarshaler (res : Except GoError String) : GoValue
  | stringer (s : String) : GoValue
  | structVal (fields : List GoField) : GoValue
  | ptr (v : Option GoValue) : GoValue
  | withMethods (isEmptyM isZeroM : Option Bool) (reflectZero : Bool) (dispatchAs : GoValue) : GoValue
  | unsupported : GoValue

/-- One declared struct field: its name, whether it is exported
(`reflect.Value.CanInterface`), its `comm:"…"` tag value (`""` when
absent), and its value. -/
inductive GoField where
  | mk (name : String) (exported : Bool) (tag : String) (value : GoValue) : GoField
end

/-- Field name accessor (`reflect.StructField.Name`). -/
def GoField.name : GoField → String
  | .mk n _ _ _ => n

/-- Exportedness accessor (`value.Field(i).CanInterface()`). -/
def GoField.exported : GoField → Bool
  | .mk _ e _ _ => e

/-- Tag accessor (`structField.Tag.Get("comm")`). -/
def GoField.tag : GoField → String
  | .mk _ _ t _ => t

/-- Value accessor (`value.Field(i)`). -/
def GoField.value : GoField → GoValue
  | .mk _ _ _ v => v

/-- Whether the value's dynamic type implements `interface{ IsEmpty()
bool }`, and the method's result if so.  Only `withMethods` values model
types carrying such a method; the built-in shapes (`string`, `bool`,
slices, pointers) have no method set. -/
def isEmptyMethod : GoValue → Option Bool
  | .withMethods e _ _ _ => e
  | _ => none

/-- Whether the value's dynamic type implements `interface{ IsZero()
bool }`, and the method's result if so. -/
def isZeroMethod : GoValue → Option Bool
  | .withMethods _ z _ _ => z
  | _ => none

/-- `reflect.ValueOf(data).IsZero()`.  On the untyped nil interface
`reflect.ValueOf` yields the invalid zero `reflect.Value`, whose
`IsZero` panics.  A string is zero iff empty, a bool iff false, a
pointer iff nil, a slice iff nil (this model does not distinguish a nil
from a non-nil empty slice; no claim depends on the difference).  For
the opaque named types (`marshaler`, `textMarshaler`, `stringer`,
`structVal`, `unsupported`) the model fixes a representative non-zero
instance; values whose reflect-zeroness matters to a claim are modelled
with `withMethods`, which carries it explicitly. -/
def reflectIsZero : GoValue → Except GoError Bool
  | .nilAny => .error (.goPanic "reflect: call of reflect.Value.IsZero on zero Value")
  | .str s => .ok (s == "")
  | .ptrStr v => .ok v.isNone
  | .boolVal b => .ok (b == false)
  | .ptrBool v => .ok v.isNone
  | .strSlice vs => .ok vs.isEmpty
  | .ptrStrSlice vs => .ok vs.isEmpty
  | .ptr v => .ok v.isNone
  | .withMethods _ _ rz _ => .ok rz
  | .marshaler _ _ => .ok false
  | .textMarshaler _ => .ok false
  | .stringer _ => .ok false
  | .structVal _ => .ok false
  | .unsupported => .ok false

/-- The `omitempty` decision block at the top of the method
`fieldSpec.marshalArgs` (run only when `spec.OmitEmpty` is set):
a type switch tries `IsEmpty() bool` first, then `IsZero() bool`; an
empty/zero answer returns `(nil, nil)` (here: `true`, omit).  In the
source a non-empty/non-zero answer merely falls out of the switch
("not empty, carry on"), after which the reflection zero check
`reflect.ValueOf(data).IsZero()` runs unconditionally — including after
a method already answered non-empty. -/
def omitEmptyOmits (data : GoValue) : Except GoError Bool :=
  match isEmptyMethod data with
  | some true => .ok true
  | some false => reflectIsZero data
  | none =>
    match isZeroMethod data with
    | some true => .ok true
    | some false => reflectIsZero data
    | none => reflectIsZero data

/-- Everything the method `func (spec *fieldSpec) marshalArgs(ctx, data)`
does after its call into the package-level dispatcher, as a function of
the dispatcher's result `marshaled` (passed explicitly so that the
recursion below is structural): boolean substitution when exactly one
token was produced (`true` → `Bool.True` if non-empty; `false` →
`Bool.False` if non-empty, else omitted if `Bool.True` is non-empty,
else kept), and otherwise the `Separator` join followed by the
`SingleArgc` space-join-and-concatenate. -/
def fieldSpec.marshalArgsWith (spec : fieldSpec) (data : GoValue)
    (marshaled : MarshalResult) : MarshalResult :=
  match (if spec.OmitEmpty then omitEmptyOmits data else .ok false) with
  | .error e => .error e
  | .ok true => .ok []
  | .ok false =>
    match marshaled with
    | .error e => .error e
    | .ok marshaledArgs =>
      match marshaledArgs with
      | [tok] =>
        if tok == "true" && F spec.BoolTrue != "" then .ok [F spec.BoolTrue]
        else if tok == "false" then
          if F spec.BoolFalse != "" then .ok [F spec.BoolFalse]
          else if F spec.BoolTrue != "" then .ok []
          else .ok [tok]
        else .ok [tok]
      | _ =>
        let args :=
          match spec.Separator with
          | some sep => [goJoin marshaledArgs sep]
          | none => marshaledArgs
        let argsFinal :=
          match spec.SingleArgc with
          | some _ =>
            match args with
            | [single] => [F spec.SingleArgc ++ single]
            | _ => [F spec.SingleArgc ++ goJoin args " "]
          | none => args
        .ok argsFinal

/-- `func (spec fieldSpec) Marshal(ctx, data)`, as a function of the
dispatcher's result for `data`: an `OmitField` spec yields no tokens
without dispatching; an empty result yields no tokens; otherwise
`SingleArgc` (when set) concatenates the remaining tokens into one
prefixed token — note the source applies this on top of the method
`fieldSpec.marshalArgs`, which already applied `SingleArgc` to
multi-token results — and `Prepend`/`Append` wrap the result. -/
def fieldSpec.MarshalWith (spec : fieldSpec) (data : GoValue)
    (marshaled : MarshalResult) : MarshalResult :=
  if spec.OmitField then .ok []
  else
    match fieldSpec.marshalArgsWith spec data marshaled with
    | .error e => .error e
    | .ok dataArgs =>
      if dataArgs.isEmpty then .ok []
      else
        let dataArgsFinal :=
          match spec.SingleArgc with
          | some _ =>
            match dataArgs with
            | [single] => [F spec.SingleArgc ++ single]
            | _ => [F spec.SingleArgc ++ goJoin dataArgs " "]
          | none => dataArgs
        .ok (spec.Prepend ++ dataArgsFinal ++ spec.Append)

/-- `func marshalSpec(ctx, specString, value)`, as a function of the
dispatcher's result for `value`: parse the directive, then apply the
spec. -/
def marshalSpecWith (specString : String) (data : GoValue)
    (marshaled : MarshalResult) : MarshalResult :=
  match parseSpec specString with
  | .error e => .error e
  | .ok spec => fieldSpec.MarshalWith spec data marshaled

mutual
/-- `func marshalArgs(ctx, data any) ([]string, error)`: the internal
dispatcher.  The untyped nil interface yields no tokens; a value
implementing `ArgsMarshaler` returns its own result verbatim (first
case of the type switch, before every other category); the built-in
shapes produce their tokens (`[]*string` drops nil elements;
`bool` formats as `"true"`/`"false"`; `TextMarshaler` errors propagate);
a struct value walks its fields; any other pointer is dereferenced and
re-dispatched — but on a nil such pointer the source calls
`reflected.Elem().CanInterface()` where `Elem()` of a nil pointer is the
invalid zero `reflect.Value`, on which `CanInterface` panics; everything
else is the `"unsupported type(s)"` error. -/
def marshalArgs : GoValue → MarshalResult
  | .nilAny => .ok []
  | .marshaler res _ => res
  | .str s => .ok [s]
  | .ptrStr none => .ok []
  | .ptrStr (some s) => .ok [s]
  | .boolVal b => .ok [formatBool b]
  | .ptrBool none => .ok []
  | .ptrBool (some b) => .ok [formatBool b]
  | .strSlice vs => .ok vs
  | .ptrStrSlice vs => .ok (vs.filterMap id)
  | .textMarshaler (.error e) => .error e
  | .textMarshaler (.ok t) => .ok [t]
  | .stringer s => .ok [s]
  | .structVal fields => marshalStructFieldsFrom 0 fields
  | .ptr none => .error (.goPanic "reflect: call of reflect.Value.CanInterface on zero Value")
  | .ptr (some v) => marshalArgs v
  | .withMethods _ _ _ d => marshalArgs d
  | .unsupported => .error (.goError "unsupported type(s)")

/-- The field loop of `func marshalStructFields(ctx, value)`, carrying
the running declaration index `i` (the loop visits every declared field,
skipping those that are not exported without marshalling them, but still
counting them in `i`).  A field failure is wrapped by
`newMarshalArgFieldError` into `MarshalStructFieldError{FieldName:
structField.Name, FieldNum: structField.Index[0], Err: err}` and aborts
the walk, discarding earlier fields' tokens; successes are concatenated
in declaration order. -/
def marshalStructFieldsFrom : Nat → List GoField → MarshalResult
  | _, [] => .ok []
  | i, .mk nm ex tg v :: rest =>
    if ex then
      match marshalSpecWith tg v (marshalArgs v) with
      | .error e => .error (.marshalStructFieldError nm i e)
      | .ok fieldArgs =>
        match marshalStructFieldsFrom (i + 1) rest with
        | .error e2 => .error e2
        | .ok args => .ok (fieldArgs ++ args)
    else
      marshalStructFieldsFrom (i + 1) rest
end

/-- `func marshalStructFields(ctx, value)`: walk the struct's declared
fields from index 0.  (The source's defensive `value.Kind() != Struct`
check cannot fire here: this function is only applied to field lists.) -/
def marshalStructFields (fields : List GoField) : MarshalResult :=
  marshalStructFieldsFrom 0 fields

/-- The method `func (spec *fieldSpec) marshalArgs(ctx, data)` with the
dispatcher call in place (ties `fieldSpec.marshalArgsWith` to
`marshalArgs`). -/
def fieldSpec.marshalArgs (spec : fieldSpec) (data : GoValue) : MarshalResult :=
  fieldSpec.marshalArgsWith spec data (Comm.marshalArgs data)

/-- `func (spec fieldSpec) Marshal(ctx, data)` with the dispatcher call
in place. -/
def fieldSpec.Marshal (spec : fieldSpec) (data : GoValue) : MarshalResult :=
  fieldSpec.MarshalWith spec data (Comm.marshalArgs data)

/-- `func marshalSpec(ctx, specString, value)` with the dispatcher call
in place. -/
def marshalSpec (specString : String) (data : GoValue) : MarshalResult :=
  marshalSpecWith specString data (Comm.marshalArgs data)

/-- `func MarshalArgs(ctx, data any)`: the public entry point, which
defers to the internal dispatcher. -/
def MarshalArgs (data : GoValue) : MarshalResult :=
  marshalArgs data

/-! ## Claim theorems -/

/-- Claim C1.  The claim states that a `--flag=` directive prefixes the
field's tokens exactly once, so that a string `"v"` yields
`["--flag=v"]` and a three-element string slice yields
`["--flag=a b c"]`.  The code disagrees on the slice: the method
`fieldSpec.marshalArgs` already joins a multi-token result and prepends
`SingleArgc`, and `fieldSpec.Marshal` then prepends `SingleArgc` a
second time, producing `["--flag=--flag=a b c"]` — contradicting the
repository's own test for `--dashconfigslice=` as well as the spec.
The single-string case behaves as claimed. -/
theorem C1_singleArgc_applied_twice :
    marshalArgs (.structVal [.mk "Flag" true "--flag=" (.str "v")]) = .ok ["--flag=v"]
    ∧ marshalArgs (.structVal [.mk "Flags" true "--flag=" (.strSlice ["a", "b", "c"])])
        = .ok ["--flag=--flag=a b c"] :=
  ⟨by decide, by decide⟩

/-- Claim C3.  The claim states that for an `omitempty` field whose
value implements `IsEmpty` (or else `IsZero`), the capability's answer
alone decides emptiness, and the generic reflection zero check is used
only for values with neither method.  In the code the reflection check
`reflect.ValueOf(data).IsZero()` runs unconditionally after a non-empty
capability answer: a value whose `IsEmpty` returns `false` but whose
representation is its type's zero value (e.g. `type T struct{}` with
`IsEmpty() bool { return false }` and a `String` method) is still
omitted, even though dispatching it would produce a token.  The last
two conjuncts show the contrast: with reflect-zero `false` the value is
dispatched, and an empty capability answer does omit. -/
theorem C3_reflection_overrides_capability :
    fieldSpec.marshalArgs { OmitEmpty := true }
      (.withMethods (some false) none true (.stringer "present")) = .ok []
    ∧ marshalArgs (.withMethods (some false) none true (.stringer "present")) = .ok ["present"]
    ∧ fieldSpec.marshalArgs { OmitEmpty := true }
        (.withMethods (some false) none false (.stringer "present")) = .ok ["present"]
    ∧ fieldSpec.marshalArgs { OmitEmpty := true }
        (.withMethods (some true) none false (.stringer "present")) = .ok [] :=
  ⟨by decide, by decide, by decide, by decide⟩

/-- Claim C4.  The claim states that a nil pointer to a struct yields
zero tokens and no error, while a non-nil pointer is dereferenced
(transitively) and marshals like its target.  The dereferencing half
holds, but on a typed nil pointer the code panics: it calls
`reflected.Elem().CanInterface()`, and `Elem()` of a nil pointer is the
invalid zero `reflect.Value`, on which `CanInterface` panics (and even
if control fell through, the result would be the `"unsupported
type(s)"` error, not a clean empty result). -/
theorem C4_nil_struct_ptr_panics :
    marshalArgs (.ptr none)
      = .error (.goPanic "reflect: call of reflect.Value.CanInterface on zero Value")
    ∧ (∀ v : GoValue, marshalArgs (.ptr (some v)) = marshalArgs v)
    ∧ marshalArgs (.ptr (some (.ptr (some (.structVal [.mk "A" true "" (.str "x")])))))
        = .ok ["x"] :=
  ⟨by decide, fun _ => rfl, by decide⟩

/-- Claim C8.  The claim states that a field whose dispatched value
produces zero raw tokens yields zero tokens and no error, with no
prepend/append/prefix wrapping.  That holds for `Prepend`-style
directives (third conjunct), but not when `SingleArgc` is set: the
method `fieldSpec.marshalArgs` turns an empty token list into the
single token `SingleArgc ++ ""`, defeating the empty-result guard in
`fieldSpec.Marshal`, which then prefixes once more — a nil `*string`
or empty `[]string` under `--flag=` yields `["--flag=--flag="]`. -/
theorem C8_empty_dispatch_still_prefixed :
    marshalSpec "--flag=" (.ptrStr none) = .ok ["--flag=--flag="]
    ∧ marshalSpec "--flag=" (.strSlice []) = .ok ["--flag=--flag="]
    ∧ marshalSpec "--flag" (.ptrStr none) = .ok [] :=
  ⟨by decide, by decide, by decide⟩

/-- Claim C9.  A value implementing `ArgsMarshaler` is the first case
of the dispatcher's type switch, so its `MarshalArgs` result — tokens
or error — is returned verbatim, whatever other fields the value
exposes; the last conjunct shows those extra fields would have produced
different tokens had the value been walked as a struct. -/
theorem C9_marshaler_result_verbatim :
    (∀ (res : Except GoError (List String)) (extra : List GoField),
      marshalArgs (.marshaler res extra) = res)
    ∧ marshalArgs (.marshaler (.ok ["list", "of", "args"])
        [.mk "Extra" true "--extra" (.str "extra-value")]) = .ok ["list", "of", "args"]
    ∧ marshalStructFields [.mk "Extra" true "--extra" (.str "extra-value")]
        = .ok ["--extra", "extra-value"] :=
  ⟨fun _ _ => rfl, by decide, by decide⟩

/-- Claim C2.  When the dispatcher produced exactly the single token
`"false"` for a field (and `omitempty` is not in play), the spec
substitutes a non-empty `BoolFalse` if set; otherwise a non-empty
`BoolTrue` (with no false substitution) suppresses the token entirely;
otherwise `"false"` passes through unchanged.  In particular a bool
field tagged `true=--dry-run` marshals `true` to `["--dry-run"]` and
`false` to `[]`. -/
theorem C2_false_token_substitution :
    (∀ (spec : fieldSpec) (v : GoValue),
      marshalArgs v = .ok ["false"] → spec.OmitEmpty = false →
      fieldSpec.marshalArgs spec v =
        (if F spec.BoolFalse != "" then .ok [F spec.BoolFalse]
         else if F spec.BoolTrue != "" then .ok []
         else .ok ["false"]))
    ∧ marshalSpec "true=--dry-run" (.boolVal true) = .ok ["--dry-run"]
    ∧ marshalSpec "true=--dry-run" (.boolVal false) = .ok [] := by
  refine ⟨?_, by decide, by decide⟩
  intro spec v hv hoe
  unfold fieldSpec.marshalArgs fieldSpec.marshalArgsWith
  rw [hoe, hv]
  simp

/-- Witness for C2: a bool field with only a `true=` substitution and
value `false` is suppressed. -/
theorem C2_false_token_substitution_witness :
    fieldSpec.marshalArgs { BoolTrue := some "--dry-run" } (.boolVal false) = .ok [] := by
  have h := C2_false_token_substitution.1 { BoolTrue := some "--dry-run" }
    (.boolVal false) (by decide) rfl
  simpa using h

/-- Claim C6.  The directive parser is total: every return site of
`parseSpec` carries a nil error, so every input string — malformed,
empty, with duplicate or trailing commas — parses to some `fieldSpec`;
unrecognized bare keywords (`bogus`, a bare `true`) and unrecognized
keys (`mystery=1`) are ignored and the result degrades to the default
spec. -/
theorem C6_parseSpec_total :
    (∀ s : String, ∃ fs : fieldSpec, parseSpec s = .ok fs)
    ∧ parseSpec "bogus,mystery=1,," = .ok {}
    ∧ parseSpec "wat,true" = .ok {} := by
  refine ⟨?_, by decide, by decide⟩
  intro s
  unfold parseSpec
  split
  · exact ⟨_, rfl⟩
  · split
    · exact ⟨_, rfl⟩
    · split
      · exact ⟨_, rfl⟩
      · exact ⟨_, rfl⟩

/-- A `"-,"`-led string is non-empty and its character list starts with
the two characters of the marker (helper for C7). -/
theorem goStartsWith_dash_comma (tag : String) (h : goStartsWith tag "-," = true) :
    ∃ rest, tag.data = '-' :: ',' :: rest := by
  have hdata : ("-," : String).data = ['-', ','] := by decide
  unfold goStartsWith at h
  rw [hdata] at h
  cases hm : tag.data with
  | nil => rw [hm] at h; simp [goStartsWithCh] at h
  | cons c cs =>
    rw [hm] at h
    cases hm2 : cs with
    | nil => rw [hm2] at h; simp [goStartsWithCh] at h
    | cons c2 cs2 =>
      rw [hm2] at h
      simp only [goStartsWithCh, Bool.and_eq_true, beq_iff_eq] at h
      rw [hm2] at hm
      obtain ⟨h1, h2, -⟩ := h
      subst h1
      subst h2
      exact ⟨cs2, rfl⟩

/-- Claim C7.  A directive that is exactly `-`, or begins with `-,`,
parses to an `OmitField` spec, and such a field contributes zero tokens
and no error whatever its value — including values the dispatcher could
not marshal (the quantified `v` covers `unsupported`), showing the value
is never dispatched; trailing malformed segments after `-,` are
ignored. -/
theorem C7_omitField_never_dispatched (tag : String)
    (h : tag = "-" ∨ goStartsWith tag "-," = true) (v : GoValue) :
    marshalSpec tag v = .ok [] := by
  have hps : parseSpec tag = .ok { OmitField := true } := by
    have hne : (tag == "") = false := by
      rcases h with h | h
      · subst h; decide
      · obtain ⟨rest, hd⟩ := goStartsWith_dash_comma tag h
        simp only [beq_eq_false_iff_ne, ne_eq]
        intro hcontra
        rw [hcontra] at hd
        have hemp : ("" : String).data = [] := rfl
        rw [hemp] at hd
        exact List.noConfusion hd
    have hcond : (tag == "-" || goStartsWith tag "-,") = true := by
      rcases h with h | h
      · subst h; decide
      · rw [h]; simp
    unfold parseSpec
    rw [hne, hcond]
    rfl
  unfold marshalSpec marshalSpecWith
  rw [hps]
  rfl

/-- Witness for C7: the repository's own malformed omission directive
`-,foo,k=v,,` on a value the dispatcher cannot handle still yields zero
tokens and no error. -/
theorem C7_omitField_never_dispatched_witness :
    marshalSpec "-,foo,k=v,," GoValue.unsupported = .ok [] :=
  C7_omitField_never_dispatched "-,foo,k=v,," (Or.inr (by decide)) GoValue.unsupported

/-- Every error out of the struct-field loop is a
`MarshalStructFieldError` naming an exported field, at that field's
declaration index offset by the loop's running start index (helper for
C5). -/
theorem marshalStructFieldsFrom_error_shape (fields : List GoField) :
    ∀ (k : Nat) (err : GoError), marshalStructFieldsFrom k fields = .error err →
      ∃ j, ∃ hj : j < fields.length, ∃ e,
        err = .marshalStructFieldError (fields.get ⟨j, hj⟩).name (k + j) e
        ∧ (fields.get ⟨j, hj⟩).exported = true := by
  induction fields with
  | nil =>
    intro k err h
    simp [marshalStructFieldsFrom] at h
  | cons f rest ih =>
    intro k err h
    obtain ⟨nm, ex, tg, v⟩ := f
    simp only [marshalStructFieldsFrom] at h
    split at h
    next hex =>
      split at h
      next e heq =>
        injection h with h1
        subst h1
        exact ⟨0, by simp, e, by simp [GoField.name], by simp [GoField.exported, hex]⟩
      next fa heq =>
        split at h
        next e2 heq2 =>
          injection h with h1
          subst h1
          obtain ⟨j, hj, e, he, hexp⟩ := ih (k + 1) e2 heq2
          refine ⟨j + 1, by simpa using hj, e, ?_, ?_⟩
          · have harith : k + 1 + j = k + (j + 1) := by omega
            rw [harith] at he
            simpa using he
          · simpa using hexp
        next => exact absurd h (by simp)
    next hex =>
      obtain ⟨j, hj, e, he, hexp⟩ := ih (k + 1) err h
      refine ⟨j + 1, by simpa using hj, e, ?_, ?_⟩
      · have harith : k + 1 + j = k + (j + 1) := by omega
        rw [harith] at he
        simpa using he
      · simpa using hexp

/-- Claim C5.  Whenever marshalling a struct fails, the error handed to
the caller is a `MarshalStructFieldError` carrying the failing field's
name and its declaration index within the struct (unexported fields
included in the count), and `Unwrap` returns exactly the wrapped
underlying cause. -/
theorem C5_field_error_wrapped (fields : List GoField) (err : GoError)
    (h : marshalArgs (.structVal fields) = .error err) :
    ∃ j, ∃ hj : j < fields.length, ∃ e,
      err = .marshalStructFieldError (fields.get ⟨j, hj⟩).name j e
      ∧ (fields.get ⟨j, hj⟩).exported = true
      ∧ GoError.Unwrap err = some e := by
  have h0 : marshalStructFieldsFrom 0 fields = .error err := by
    simpa [marshalArgs] using h
  obtain ⟨j, hj, e, he, hexp⟩ := marshalStructFieldsFrom_error_shape fields 0 err h0
  refine ⟨j, hj, e, by simpa using he, hexp, ?_⟩
  rw [he]
  rfl

/-- Witness for C5: a single-field struct whose field is an unsupported
map fails with a field error naming `Bad` at index 0 and unwrapping to
the dispatcher's unsupported-type error. -/
theorem C5_field_error_wrapped_witness :
    ∃ j, ∃ hj : j < ([GoField.mk "Bad" true "" .unsupported] : List GoField).length, ∃ e,
      GoError.marshalStructFieldError "Bad" 0 (.goError "unsupported type(s)")
        = .marshalStructFieldError
            (([GoField.mk "Bad" true "" .unsupported] : List GoField).get ⟨j, hj⟩).name j e
      ∧ (([GoField.mk "Bad" true "" .unsupported] : List GoField).get ⟨j, hj⟩).exported = true
      ∧ GoError.Unwrap (.marshalStructFieldError "Bad" 0 (.goError "unsupported type(s)"))
          = some e :=
  C5_field_error_wrapped [.mk "Bad" true "" .unsupported]
    (.marshalStructFieldError "Bad" 0 (.goError "unsupported type(s)")) (by decide)

/-- The key/value scan of the parser's loop never touches `SingleArgc`
or `Prepend` (helper for C10). -/
theorem parseSpecKV_keeps_flag_fields (p : fieldSpec) (e : String) :
    (parseSpecKV p e).SingleArgc = p.SingleArgc ∧ (parseSpecKV p e).Prepend = p.Prepend := by
  unfold parseSpecKV
  split
  · split <;> exact ⟨rfl, rfl⟩
  · split
    · exact ⟨rfl, rfl⟩
    · split <;> exact ⟨rfl, rfl⟩
  · exact ⟨rfl, rfl⟩

/-- Folding the key/value scan over the directive elements leaves
`SingleArgc` and `Prepend` as the first-element analysis set them
(helper for C10). -/
theorem foldl_parseSpecKV_keeps_flag_fields (l : List String) (p : fieldSpec) :
    (List.foldl parseSpecKV p l).SingleArgc = p.SingleArgc
    ∧ (List.foldl parseSpecKV p l).Prepend = p.Prepend := by
  induction l generalizing p with
  | nil => exact ⟨rfl, rfl⟩
  | cons x xs ih =>
    have hkv := parseSpecKV_keeps_flag_fields p x
    have hih := ih (parseSpecKV p x)
    exact ⟨by rw [List.foldl_cons, hih.1, hkv.1], by rw [List.foldl_cons, hih.2, hkv.2]⟩

/-- Claim C10.  No parsed spec carries both a `SingleArgc` and a
non-empty `Prepend`: the parser sets at most one of them, from the
first directive element only, so `Prepend` holds at most one entry and
any entry equals the first comma-separated element of the directive. -/
theorem C10_flag_fields_exclusive (s : String) (fs : fieldSpec) (h : parseSpec s = .ok fs) :
    (fs.SingleArgc = none ∨ fs.Prepend = [])
    ∧ fs.Prepend.length ≤ 1
    ∧ ∀ x ∈ fs.Prepend, (goSplit s ',').head? = some x := by
  unfold parseSpec at h
  split at h
  · injection h with h1
    subst h1
    exact ⟨Or.inl rfl, by simp, by simp⟩
  · split at h
    · injection h with h1
      subst h1
      exact ⟨Or.inl rfl, by simp, by simp⟩
    · split at h
      next heqsplit =>
        injection h with h1
        subst h1
        exact ⟨Or.inl rfl, by simp, by simp⟩
      next first rest heqsplit =>
        injection h with h1
        subst h1
        have hfold := foldl_parseSpecKV_keeps_flag_fields (first :: rest)
          (if goStartsWith first "-" then
            if goEndsWith first "=" then { SingleArgc := P first }
            else { Prepend := [first] }
          else {})
        rw [hfold.1, hfold.2]
        split
        · split
          · exact ⟨Or.inr rfl, by simp, by simp⟩
          · refine ⟨Or.inl rfl, by simp, ?_⟩
            intro x hx
            rw [heqsplit]
            simp only [List.mem_singleton] at hx
            subst hx
            rfl
        · exact ⟨Or.inl rfl, by simp, by simp⟩

/-- Witness for C10: the spec parsed from `--flag` has a one-element
`Prepend`, no `SingleArgc`, and the entry is the directive's first
element. -/
theorem C10_flag_fields_exclusive_witness :
    (({ Prepend := ["--flag"] } : fieldSpec).SingleArgc = none
      ∨ ({ Prepend := ["--flag"] } : fieldSpec).Prepend = [])
    ∧ ({ Prepend := ["--flag"] } : fieldSpec).Prepend.length ≤ 1
    ∧ ∀ x ∈ ({ Prepend := ["--flag"] } : fieldSpec).Prepend,
        (goSplit "--flag" ',').head? = some x :=
  C10_flag_fields_exclusive "--flag" { Prepend := ["--flag"] } (by decide)

end Comm
